import Mathlib

/-!
Shallow embedding of the query-classification and context-resolution pipeline
of the llama/GitHub MCP integration (source files `llama_mcp_server.py` and
`llama_client_app.py`).

Network calls (the GitHub contents API, the local model backend, and the
client's two HTTP calls to the server) are modelled as explicit "upstream
outcome" parameters: each Lean function takes the outcome of the at most one
outbound call its Python counterpart performs and computes the same value the
Python code computes from it.  Strings are Lean `String`s (lists of unicode
characters); Python's `str.lower` is modelled by the ASCII `Char.toLower`
(identical on ASCII input), and the regex class `\s` by the ASCII whitespace
characters.  The two relevance scores 0.95 and 0.9, literal constants in the
source, are modelled as exact rationals.
-/

/-- Python `str.lower()` (ASCII case folding, as used by the keyword tests). -/
def pyLower (s : String) : String := String.mk (s.data.map Char.toLower)

/-- Does `sub` occur as a contiguous run of `s`?  (Boolean substring test.) -/
def hasSublist (sub : List Char) : List Char → Bool
  | [] => sub.isEmpty
  | c :: t => List.isPrefixOf sub (c :: t) || hasSublist sub t

/-- Python substring test `sub in s`. -/
def strContains (s sub : String) : Bool := hasSublist sub.data s.data

/-- ASCII characters matched by the regex class `\s`. -/
def isPySpace (c : Char) : Bool :=
  c == ' ' || c == '\t' || c == '\n' || c == '\r' || c == '\x0b' || c == '\x0c'

/-- Characters admitted by the segment class `[^/\s]` of the URL-search regex. -/
def urlSegChar (c : Char) : Bool := !(c == '/') && !(isPySpace c)

/-- Match a literal at the head of the input; on success return the rest.
Implements a literal step of a regex match. -/
def stripLit (lit cs : List Char) : Option (List Char) :=
  cond (List.isPrefixOf lit cs) (some (cs.drop lit.length)) none

/-- The mandatory scheme part `https?://` of the search regex: which literal
it consumed and what remains.  The two alternatives disagree at their fifth
character, so they are mutually exclusive and trying the greedy one first is
exactly the regex's backtracking behaviour. -/
def matchSchemeAt (cs : List Char) : Option (List Char × List Char) :=
  match stripLit "https://".data cs with
  | some r => some ("https://".data, r)
  | none =>
    match stripLit "http://".data cs with
    | some r => some ("http://".data, r)
    | none => none

/-- The optional `(?:www\.)?` part: what it consumed and what remains.
Consuming `www.` and matching the following literal `github.com` are mutually
exclusive, so the greedy choice never needs to backtrack. -/
def matchWwwAt (cs : List Char) : List Char × List Char :=
  match stripLit "www.".data cs with
  | some r => ("www.".data, r)
  | none => ([], cs)

/-- Attempt the search regex `https?://(?:www\.)?github\.com/[^/\s]+/[^/\s]+`
(server line 115, client line 86) at the head of `cs`; on success return the
matched characters (group 0).  Each `[^/\s]+` is followed by a character it
cannot consume (`/` or the end of the pattern), so the greedy,
non-backtracking strategy below computes exactly the regex match. -/
def matchUrlAt (cs : List Char) : Option (List Char) :=
  match matchSchemeAt cs with
  | none => none
  | some (sch, r1) =>
    let www := matchWwwAt r1
    match stripLit "github.com/".data www.2 with
    | none => none
    | some r3 =>
      let seg1 := r3.takeWhile urlSegChar
      match r3.dropWhile urlSegChar with
      | '/' :: r5 =>
        let seg2 := r5.takeWhile urlSegChar
        cond (seg1.isEmpty || seg2.isEmpty) none
          (some (sch ++ www.1 ++ "github.com/".data ++ seg1 ++ '/' :: seg2))
      | _ => none

/-- Scan left to right for the first position where the URL regex matches. -/
def searchUrlGo : List Char → Option (List Char)
  | [] => none
  | c :: t =>
    match matchUrlAt (c :: t) with
    | some m => some m
    | none => searchUrlGo t

/-- Python `re.search(r"https?://(?:www\.)?github\.com/[^/\s]+/[^/\s]+", q)`
followed by `.group(0)`, shared by server line 115-119 and client line 86/92. -/
def searchGithubUrl (q : String) : Option String :=
  (searchUrlGo q.data).map (fun m => String.mk m)

/-- The two-part keyword test of server line 113 and client lines 87-88:
`"github" in q.lower() and ("list" in q.lower() or "files" in q.lower())`. -/
def github_request (q : String) : Bool :=
  strContains (pyLower q) "github" &&
    (strContains (pyLower q) "list" || strContains (pyLower q) "files")

/-- The classifier decision both decision points share: listing intent iff the
keyword test passes and the URL search finds a match. -/
def isListingIntent (q : String) : Bool :=
  github_request q && (searchGithubUrl q).isSome

/-- Result of `parse_github_url`: the extracted owner and repository name. -/
structure RepoRef where
  owner : String
  repo : String
deriving DecidableEq, Repr

/-- The optional scheme group `(?:https?://)?` of the anchored match
performed by `parse_github_url`.  As in `matchSchemeAt`, the alternatives are
mutually exclusive, and skipping the group is mutually exclusive with
consuming it, so greedy non-backtracking matching is exact. -/
def stripSchemeOpt (cs : List Char) : List Char :=
  match stripLit "https://".data cs with
  | some r => r
  | none =>
    match stripLit "http://".data cs with
    | some r => r
    | none => cs

/-- The optional `(?:www\.)?` group of the anchored match. -/
def stripWwwOpt (cs : List Char) : List Char :=
  match stripLit "www.".data cs with
  | some r => r
  | none => cs

/-- The capturing tail `([^/]+)/([^/\.]+)` of the anchored match, after the
literal `github.com/` has been consumed. -/
def parseOwnerRepo (r3 : List Char) : Option RepoRef :=
  let own := r3.takeWhile (fun c => !(c == '/'))
  match r3.dropWhile (fun c => !(c == '/')) with
  | '/' :: r5 =>
    let rep := r5.takeWhile (fun c => !(c == '/') && !(c == '.'))
    cond (own.isEmpty || rep.isEmpty) none
      (some ⟨String.mk own, String.mk rep⟩)
  | _ => none

/-- Function `parse_github_url` (server lines 69-86): Python
`re.match(r"(?:https?://)?(?:www\.)?github\.com/([^/]+)/([^/\.]+)(?:\.git)?", url)`.
`([^/]+)` must be followed by `/`, which it cannot consume, and `([^/\.]+)`
ends the mandatory part of the pattern, so greedy matching computes exactly
the regex semantics; the trailing optional `(?:\.git)?` consumes nothing of
the captured groups and is dropped. -/
def parse_github_url (url : String) : Option RepoRef :=
  match stripLit "github.com/".data (stripWwwOpt (stripSchemeOpt url.data)) with
  | none => none
  | some r3 => parseOwnerRepo r3

/-- One entry of the upstream GitHub contents listing (`{name, path, type}`). -/
structure GhEntry where
  name : String
  path : String
  type : String
deriving DecidableEq, Repr

/-- Outcome of the single outbound HTTP call of `list_github_repo_files`:
either a response (status, parsed JSON body: the contents array for 200, the
optional `message` field otherwise) or a raised transport exception. -/
inductive GhUpstream where
  | response (status : Nat) (contents : List GhEntry) (message : Option String)
  | exn (msg : String)
deriving DecidableEq, Repr

/-- Return value of `list_github_repo_files`: the contents list, or the
`{"error": ...}` dictionary. -/
inductive FilesData where
  | entries (l : List GhEntry)
  | error (msg : String)
deriving DecidableEq, Repr

/-- Function `list_github_repo_files` (server lines 88-106). `owner`, `repo` and `path`
only form the request URL of the call whose outcome `up` models. -/
def list_github_repo_files (owner repo path : String) (up : GhUpstream) :
    FilesData :=
  match up with
  | .response status contents message =>
    cond (status == 200) (.entries contents)
      (.error (message.getD ("Error: Status code " ++ toString status)))
  | .exn e => .error e

/-- Outcome of the single outbound HTTP call of `query_llama`: a response
(status, optional `response` JSON field) or a raised transport exception. -/
inductive LlamaUpstream where
  | response (status : Nat) (responseField : Option String)
  | exn (msg : String)
deriving DecidableEq, Repr

/-- Function `query_llama` (server lines 46-67).  `text` is the prompt sent upstream; it
does not influence the value computed from the call's outcome `up`. -/
def query_llama (text : String) (up : LlamaUpstream) : String :=
  match up with
  | .response status responseField =>
    cond (status == 200) (responseField.getD "No response from model")
      ("Error querying model: " ++ toString status)
  | .exn e => "Error: " ++ e

/-- The prompt template of server lines 161-164 (the listing-intent branch
without a URL; the template body is indented by 12 spaces). -/
def llamaPromptInner (q : String) : String :=
  "Please provide relevant information for the following query: \n            "
    ++ q ++ "\n            \n            Respond with factual, helpful information."

/-- The prompt template of server lines 175-178 (the generic branch; the
template body is indented by 8 spaces). -/
def llamaPromptOuter (q : String) : String :=
  "Please provide relevant information for the following query: \n        "
    ++ q ++ "\n        \n        Respond with factual, helpful information."

/-- One element of a context response. -/
structure ContextElement where
  content : String
  source : String
  relevance_score : ℚ
deriving DecidableEq, Repr

/-- Values stored in the response's metadata dictionary. -/
inductive MetaVal where
  | num (n : Nat)
  | str (s : String)
deriving DecidableEq, Repr

/-- The `ContextResponse` model (server lines 20-22). -/
structure ContextResponse where
  context_elements : List ContextElement
  metadata : List (String × MetaVal)
deriving DecidableEq, Repr

/-- The loop of server lines 127-134: one pass over the entries, appending
files to the first list and everything else to the second. -/
def splitEntries (files_data : List GhEntry) : List String × List String :=
  files_data.foldl
    (fun acc item =>
      cond (item.type == "file")
        (acc.1 ++ ["📄 " ++ item.name], acc.2)
        (acc.1, acc.2 ++ ["📁 " ++ item.name]))
    ([], [])

/-- Concatenation `all_items = directory_list + file_list` (server line 136). -/
def allItems (files_data : List GhEntry) : List String :=
  (splitEntries files_data).2 ++ (splitEntries files_data).1

/-- The content block of server lines 138-139. -/
def formatRepoContent (ri : RepoRef) (files_data : List GhEntry) : String :=
  "Repository: " ++ ri.owner ++ "/" ++ ri.repo ++ "\n\n"
    ++ "Files and directories:\n" ++ String.intercalate "\n" (allItems files_data)

/-- The `context_elements` value computed by `get_context` (server lines
112-186), as a function of the query and of the outcome of whichever single
outbound call the taken branch performs. -/
def contextElementsFor (q : String) (gh : GhUpstream) (lo : LlamaUpstream) :
    List ContextElement :=
  if github_request q then
    match searchGithubUrl q with
    | some github_url =>
      match parse_github_url github_url with
      | some repo_info =>
        match list_github_repo_files repo_info.owner repo_info.repo "" gh with
        | .entries files_data =>
          [{ content := formatRepoContent repo_info files_data,
             source := "github_api", relevance_score := 0.95 }]
        | .error error_msg =>
          [{ content := "Error accessing GitHub repository: " ++ error_msg,
             source := "github_api_error", relevance_score := 0.9 }]
      | none =>
        [{ content := "The GitHub URL provided is not valid. Please provide a URL in the format: https://github.com/owner/repo",
           source := "github_url_parser", relevance_score := 0.9 }]
    | none =>
      [{ content := query_llama (llamaPromptInner q) lo,
         source := "llama_model", relevance_score := 0.9 }]
  else
    [{ content := query_llama (llamaPromptOuter q) lo,
       source := "llama_model", relevance_score := 0.9 }]

/-- The `/context` endpoint `get_context` (server lines 108-195). -/
def get_context (q : String) (gh : GhUpstream) (lo : LlamaUpstream) :
    ContextResponse :=
  { context_elements := contextElementsFor q gh lo,
    metadata := [("processing_time_ms", MetaVal.num 150),
                 ("query", MetaVal.str q)] }

/-- Projection `elements[0]` used by the claims; the default is never reached
because every code path produces exactly one element. -/
def element0 (r : ContextResponse) : ContextElement :=
  r.context_elements.headD ⟨"", "", 0⟩

/-- The `GitHubListFilesResponse` model (server lines 33-38). -/
structure GitHubListFilesResponse where
  files : List String
  repository : String
  owner : String
  success : Bool
  message : Option String
deriving DecidableEq, Repr

/-- The loop of server lines 226-229. -/
def dedicatedFileList (files_data : List GhEntry) : List String :=
  files_data.map
    (fun item => (cond (item.type == "dir") "📁 " "📄 ") ++ item.path)

/-- The dedicated `/github/list-files` endpoint `list_files`
(server lines 197-236). -/
def list_files (repo_url : String) (gh : GhUpstream) : GitHubListFilesResponse :=
  match parse_github_url repo_url with
  | none =>
    { files := [], repository := "", owner := "", success := false,
      message := some "Invalid GitHub repository URL. Please provide a URL in the format: https://github.com/owner/repo" }
  | some repo_info =>
    match list_github_repo_files repo_info.owner repo_info.repo "" gh with
    | .error e =>
      { files := [], repository := repo_info.repo, owner := repo_info.owner,
        success := false,
        message := some ("Error accessing repository: " ++ e) }
    | .entries files_data =>
      { files := dedicatedFileList files_data, repository := repo_info.repo,
        owner := repo_info.owner, success := true, message := none }

/-- The dictionary returned by the client's `list_github_files`
(client lines 59-75): the parsed server response on success, or
`{"error": ..., "success": False}` on a transport error.  Fields are optional
because the orchestrator reads them with `.get` and defaults. -/
structure ListFilesData where
  success : Option Bool
  files : Option (List String)
  owner : Option String
  repository : Option String
  message : Option String
deriving DecidableEq, Repr

/-- The dictionary returned by the client's `get_context`
(client lines 30-57): the parsed server response, or `{"error": ...}`. -/
structure ContextData where
  error : Option String
  context_elements : Option (List ContextElement)
deriving DecidableEq, Repr

/-- Python's rendering of `result.get("owner")` inside an f-string: the field
if present, `"None"` otherwise. -/
def getStr (o : Option String) : String := o.getD "None"

/-- Method `AIAssistant.generate_response` (client lines 81-128), as a function of
the user query and of the outcomes of the at most two calls it makes:
`listResult` models `self.context_client.list_github_files(github_url)` and
`contextData` models `self.context_client.get_context(user_query)` (consumed
only on the branches that perform that call). -/
def generate_response (user_query : String) (listResult : ListFilesData)
    (contextData : ContextData) : String :=
  if github_request user_query && (searchGithubUrl user_query).isSome then
    if listResult.success.getD false then
      match listResult.files.getD [] with
      | [] =>
        "The repository " ++ getStr listResult.owner ++ "/"
          ++ getStr listResult.repository ++ " appears to be empty."
      | f :: fs =>
        "Files in " ++ getStr listResult.owner ++ "/"
          ++ getStr listResult.repository ++ ":\n\n"
          ++ String.intercalate "\n" (f :: fs)
    else
      if contextData.error.isSome then
        "Sorry, I couldn't list the GitHub repository files: "
          ++ listResult.message.getD "Unknown error"
      else
        match contextData.context_elements.getD [] with
        | e :: _ => e.content
        | [] => "I couldn't retrieve any information about the GitHub repository."
  else
    match contextData.error with
    | some err => "Sorry, I couldn't generate a proper response due to: " ++ err
    | none =>
      match contextData.context_elements.getD [] with
      | [] => "I don't have enough information to answer that question."
      | e :: _ => e.content

/-- Failure of the upstream GitHub listing call in the sense of the spec's
error taxonomy: a non-2xx status or a raised transport exception. -/
def ghFails : GhUpstream → Prop
  | .response status _ _ => status < 200 ∨ 299 < status
  | .exn _ => True

/-- The upstream-reported reason of a failed call: the `message` field of the
response body, or the exception text. -/
def upstreamReason : GhUpstream → Option String
  | .response _ _ message => message
  | .exn e => some e

/-- Stated from the spec's words (section 4.1), for comparison with
`parse_github_url`: the string matches `[scheme://][www.]github.com/<owner>/<repo>[...]`
anchored at the start, where `<owner>` is nonempty and excludes `/`, `<repo>`
is nonempty and excludes `/` and `.`, and trailing characters (including a
`.git` suffix) are ignored. -/
def specGithubUrlPattern (url : String) : Prop :=
  ∃ sch www own rep post : List Char,
    (sch = "https://".data ∨ sch = "http://".data ∨ sch = []) ∧
    (www = "www.".data ∨ www = []) ∧
    url.data = sch ++ www ++ "github.com/".data ++ own ++ '/' :: rep ++ post ∧
    own ≠ [] ∧ (∀ c ∈ own, c ≠ '/') ∧
    rep ≠ [] ∧ (∀ c ∈ rep, c ≠ '/' ∧ c ≠ '.')

/-- Stated from the spec's words (section 4.2a), for comparison with
`searchGithubUrl`: the query contains, at some position, a substring of shape
`http(s)://[www.]github.com/<seg>/<seg>` where each `<seg>` is a nonempty run
of characters other than `/` and whitespace. -/
def specGithubUrlInQuery (q : String) : Prop :=
  ∃ pre sch www own rep post : List Char,
    (sch = "https://".data ∨ sch = "http://".data) ∧
    (www = "www.".data ∨ www = []) ∧
    q.data = pre ++ sch ++ www ++ "github.com/".data ++ own ++ '/' :: rep ++ post ∧
    own ≠ [] ∧ (∀ c ∈ own, c ≠ '/' ∧ isPySpace c = false) ∧
    rep ≠ [] ∧ (∀ c ∈ rep, c ≠ '/' ∧ isPySpace c = false)

/-- The claim's reading of the URL-detection step, with the host matched
case-insensitively: the lowercased query contains a GitHub repository URL. -/
def specGithubUrlInQueryCI (q : String) : Prop :=
  specGithubUrlInQuery (pyLower q)

/-- Occurrence of `sub` as a contiguous run of `s` (the substring relation the
spec's "contains" assertions refer to). -/
def occursIn (sub s : List Char) : Prop := ∃ p t, s = p ++ sub ++ t


theorem isPrefixOf_exists : ∀ (l cs : List Char),
    List.isPrefixOf l cs = true ↔ ∃ t, cs = l ++ t := by
  intro l
  induction l with
  | nil => intro cs; simp [List.isPrefixOf]
  | cons a as ih =>
    intro cs
    cases cs with
    | nil => simp [List.isPrefixOf]
    | cons b bs =>
      simp only [List.isPrefixOf, Bool.and_eq_true, beq_iff_eq, ih,
        List.cons_append, List.cons.injEq]
      constructor
      · rintro ⟨rfl, t, rfl⟩; exact ⟨t, rfl, rfl⟩
      · rintro ⟨t, rfl, rfl⟩; exact ⟨rfl, t, rfl⟩

theorem stripLit_eq_some {lit cs rest : List Char}
    (h : stripLit lit cs = some rest) : cs = lit ++ rest := by
  unfold stripLit at h
  cases hp : List.isPrefixOf lit cs with
  | false => rw [hp] at h; simp at h
  | true =>
    rw [hp] at h
    simp only [cond_true, Option.some.injEq] at h
    obtain ⟨t, ht⟩ := (isPrefixOf_exists lit cs).mp hp
    subst ht
    rw [List.drop_left] at h
    rw [h]

theorem stripLit_self_append (lit rest : List Char) :
    stripLit lit (lit ++ rest) = some rest := by
  unfold stripLit
  have hp : List.isPrefixOf lit (lit ++ rest) = true :=
    (isPrefixOf_exists lit (lit ++ rest)).mpr ⟨rest, rfl⟩
  rw [hp, cond_true, List.drop_left]

theorem hasSublist_iff {sub s : List Char} :
    hasSublist sub s = true ↔ occursIn sub s := by
  induction s with
  | nil =>
    simp only [hasSublist, List.isEmpty_iff, occursIn]
    constructor
    · rintro rfl; exact ⟨[], [], rfl⟩
    · rintro ⟨p, t, h⟩
      rcases List.append_eq_nil.mp h.symm with ⟨h1, h2⟩
      rcases List.append_eq_nil.mp h1 with ⟨-, h3⟩
      exact h3
  | cons c t ih =>
    simp only [hasSublist, Bool.or_eq_true, isPrefixOf_exists, ih, occursIn]
    constructor
    · rintro (⟨u, hu⟩ | ⟨p, u, hu⟩)
      · exact ⟨[], u, by simpa using hu⟩
      · exact ⟨c :: p, u, by simp [hu]⟩
    · rintro ⟨p, u, hu⟩
      cases p with
      | nil => exact Or.inl ⟨u, by simpa using hu⟩
      | cons d p' =>
        simp only [List.cons_append, List.cons.injEq] at hu
        exact Or.inr ⟨p', u, hu.2⟩

instance (sub s : List Char) : Decidable (occursIn sub s) :=
  decidable_of_iff _ hasSublist_iff

theorem strContains_iff {s sub : String} :
    strContains s sub = true ↔ occursIn sub.data s.data := by
  simp [strContains, hasSublist_iff]

theorem github_request_iff {q : String} :
    github_request q = true ↔
      (occursIn "github".data (pyLower q).data ∧
        (occursIn "list".data (pyLower q).data ∨
          occursIn "files".data (pyLower q).data)) := by
  simp [github_request, Bool.and_eq_true, Bool.or_eq_true, strContains_iff]

/-- Claim C9: on every code path, the context response has exactly one
element and its metadata carries the original query under `"query"` and the
fixed processing-time value under `"processing_time_ms"`. -/
theorem c9_claim : ∀ (q : String) (gh : GhUpstream) (lo : LlamaUpstream),
    (get_context q gh lo).context_elements.length = 1 ∧
    (get_context q gh lo).metadata.lookup "query" = some (MetaVal.str q) ∧
    (get_context q gh lo).metadata.lookup "processing_time_ms" =
      some (MetaVal.num 150) := by
  intro q gh lo
  refine ⟨?_, ?_, ?_⟩
  · show (contextElementsFor q gh lo).length = 1
    unfold contextElementsFor
    repeat' split
    all_goals rfl
  · simp [get_context, List.lookup]
  · simp [get_context, List.lookup]

/-- Claim C8: for a generic-intent query (no keyword match, or no URL found)
the single element's content is exactly the string `query_llama` returned,
unmodified. -/
theorem c8_claim : ∀ (q : String) (gh : GhUpstream) (lo : LlamaUpstream),
    github_request q = false ∨ searchGithubUrl q = none →
    (element0 (get_context q gh lo)).content =
      query_llama (llamaPromptOuter q) lo := by
  intro q gh lo h
  rcases h with h | h
  · simp [get_context, contextElementsFor, element0, h]
  · cases hg : github_request q
    · simp [get_context, contextElementsFor, element0, hg]
    · simp [get_context, contextElementsFor, element0, hg, h]
      rfl

theorem c8_witness :
    (element0 (get_context "hello" (GhUpstream.exn "boom")
        (LlamaUpstream.response 200 (some "HI")))).content =
      query_llama (llamaPromptOuter "hello")
        (LlamaUpstream.response 200 (some "HI")) :=
  c8_claim "hello" (GhUpstream.exn "boom")
    (LlamaUpstream.response 200 (some "HI")) (Or.inl (by decide))

/-- Claim C3, counterexample: for the generic query "hello" the element's
source is the code's literal tag `"llama_model"`, not the spec's `"llm_model"`. -/
theorem c3_counterexample :
    isListingIntent "hello" = false ∧
    (element0 (get_context "hello" (GhUpstream.exn "boom")
        (LlamaUpstream.response 200 (some "HI")))).source = "llama_model" ∧
    (element0 (get_context "hello" (GhUpstream.exn "boom")
        (LlamaUpstream.response 200 (some "HI")))).source ≠ "llm_model" := by
  refine ⟨by decide, by decide, by decide⟩

/-- Claim C3 (amended): for every query of generic intent (no keyword match,
or listing intent without a URL match), the single context element's source is
`"llama_model"` and its relevance score is 0.9. -/
theorem c3_claim : ∀ (q : String) (gh : GhUpstream) (lo : LlamaUpstream),
    github_request q = false ∨ searchGithubUrl q = none →
    (element0 (get_context q gh lo)).source = "llama_model" ∧
    (element0 (get_context q gh lo)).relevance_score = 0.9 := by
  intro q gh lo h
  rcases h with h | h
  · simp [get_context, contextElementsFor, element0, h]
  · cases hg : github_request q
    · simp [get_context, contextElementsFor, element0, hg]
    · simp [get_context, contextElementsFor, element0, hg, h]

theorem c3_witness :
    (element0 (get_context "hello" (GhUpstream.exn "boom")
        (LlamaUpstream.response 200 (some "HI")))).source = "llama_model" ∧
    (element0 (get_context "hello" (GhUpstream.exn "boom")
        (LlamaUpstream.response 200 (some "HI")))).relevance_score = 0.9 :=
  c3_claim "hello" (GhUpstream.exn "boom")
    (LlamaUpstream.response 200 (some "HI")) (Or.inl (by decide))

theorem splitEntries_foldl : ∀ (es : List GhEntry) (a b : List String),
    es.foldl
      (fun acc item =>
        cond (item.type == "file")
          (acc.1 ++ ["📄 " ++ item.name], acc.2)
          (acc.1, acc.2 ++ ["📁 " ++ item.name]))
      (a, b) =
    (a ++ (es.filter (fun i => i.type == "file")).map (fun i => "📄 " ++ i.name),
     b ++ (es.filter (fun i => !(i.type == "file"))).map (fun i => "📁 " ++ i.name)) := by
  intro es
  induction es with
  | nil => intro a b; simp
  | cons e t ih =>
    intro a b
    cases h : e.type == "file" <;>
      simp [List.foldl_cons, List.filter_cons, h, ih, List.append_assoc]

theorem allItems_eq (es : List GhEntry) :
    allItems es =
      (es.filter (fun i => !(i.type == "file"))).map (fun i => "📁 " ++ i.name)
        ++ (es.filter (fun i => i.type == "file")).map (fun i => "📄 " ++ i.name) := by
  unfold allItems splitEntries
  rw [splitEntries_foldl]
  simp

/-- Claim C7: the content block built by the `/context` GitHub path lists all
directories (folder marker) before all files (file marker), each group in
upstream relative order; in particular one file `readme.md` and one directory
`src` render with `src` first. -/
theorem c7_claim :
    (∀ es : List GhEntry,
      allItems es =
        (es.filter (fun i => !(i.type == "file"))).map (fun i => "📁 " ++ i.name)
          ++ (es.filter (fun i => i.type == "file")).map (fun i => "📄 " ++ i.name)) ∧
    (element0 (get_context "list files from https://github.com/acme/widget"
        (GhUpstream.response 200
          [⟨"readme.md", "readme.md", "file"⟩, ⟨"src", "src", "dir"⟩] none)
        (LlamaUpstream.exn "x"))).content =
      "Repository: acme/widget\n\nFiles and directories:\n📁 src\n📄 readme.md" :=
  ⟨allItems_eq, by decide⟩

/-- Claim C10: the two endpoints classify entry kinds with opposite defaults.
The `/context` path renders an entry with the folder marker iff its type is
not `"file"`; the dedicated listing endpoint renders the folder marker iff the
type equals `"dir"`; so a `"symlink"` entry gets a folder marker from
`/context` and a file marker from the dedicated endpoint. -/
theorem c10_claim :
    (∀ e : GhEntry,
      allItems [e] = [(cond (e.type == "file") "📄 " "📁 ") ++ e.name]) ∧
    (∀ e : GhEntry,
      dedicatedFileList [e] = [(cond (e.type == "dir") "📁 " "📄 ") ++ e.path]) ∧
    (∀ e : GhEntry, e.type ≠ "file" → e.type ≠ "dir" →
      allItems [e] = ["📁 " ++ e.name] ∧
      dedicatedFileList [e] = ["📄 " ++ e.path]) ∧
    (list_files "https://github.com/acme/widget"
        (GhUpstream.response 200 [⟨"link", "src/link", "symlink"⟩] none)).files =
      ["📄 src/link"] := by
  refine ⟨?_, ?_, ?_, by decide⟩
  · intro e
    cases h : e.type == "file" <;>
      simp [allItems_eq, List.filter_cons, h]
  · intro e
    cases h : e.type == "dir" <;> simp [dedicatedFileList, h]
  · intro e hf hd
    have hf' : (e.type == "file") = false := by simpa using hf
    have hd' : (e.type == "dir") = false := by simpa using hd
    exact ⟨by simp [allItems_eq, List.filter_cons, hf'],
           by simp [dedicatedFileList, hd']⟩

theorem c10_witness :
    allItems [⟨"link", "src/link", "symlink"⟩] = ["📁 link"] ∧
    dedicatedFileList [⟨"link", "src/link", "symlink"⟩] = ["📄 src/link"] :=
  c10_claim.2.2.1 ⟨"link", "src/link", "symlink"⟩ (by decide) (by decide)

/-- Claim C2, counterexample: for a listing-intent query whose dedicated call
succeeds with an empty files list, the orchestrator does NOT fall back to the
generic context call: it returns the "appears to be empty" message, not the
fallback response's `elements[0].content` (here `"CTX"`). -/
theorem c2_counterexample :
    isListingIntent "list files from https://github.com/acme/widget" = true ∧
    generate_response "list files from https://github.com/acme/widget"
        ⟨some true, some [], some "acme", some "widget", none⟩
        ⟨none, some [⟨"CTX", "llama_model", 0.9⟩]⟩ =
      "The repository acme/widget appears to be empty." ∧
    generate_response "list files from https://github.com/acme/widget"
        ⟨some true, some [], some "acme", some "widget", none⟩
        ⟨none, some [⟨"CTX", "llama_model", 0.9⟩]⟩ ≠ "CTX" := by
  refine ⟨by decide, by decide, by decide⟩

/-- Claim C2 (amended): for a listing-intent query, when the dedicated call
reports failure (`success` falsy) the orchestrator falls back to the generic
context call and, when that call has no error field and a nonempty elements
list, returns `elements[0].content`; when the dedicated call succeeds with an
empty files list it instead returns the "appears to be empty" message without
consulting the fallback. -/
theorem c2_claim : ∀ (q : String) (lr : ListFilesData) (cd : ContextData)
    (e : ContextElement) (l : List ContextElement),
    isListingIntent q = true →
    (lr.success.getD false = false → cd.error = none →
      cd.context_elements = some (e :: l) →
      generate_response q lr cd = e.content) ∧
    (lr.success.getD false = true → lr.files.getD [] = [] →
      generate_response q lr cd =
        "The repository " ++ getStr lr.owner ++ "/" ++ getStr lr.repository
          ++ " appears to be empty.") := by
  intro q lr cd e l hq
  have hq' : (github_request q && (searchGithubUrl q).isSome) = true := hq
  constructor
  · intro hs he hel
    simp [generate_response, hq', hs, he, hel]
  · intro hs hf
    simp [generate_response, hq', hs, hf]

theorem c2_witness :
    generate_response "list files from https://github.com/acme/widget"
        ⟨some false, none, none, none, some "boom"⟩
        ⟨none, some [⟨"CTX", "llama_model", 0.9⟩]⟩ = "CTX" ∧
    generate_response "list files from https://github.com/acme/widget"
        ⟨some true, some [], some "acme", some "widget", none⟩
        ⟨none, some [⟨"CTX", "llama_model", 0.9⟩]⟩ =
      "The repository acme/widget appears to be empty." :=
  ⟨(c2_claim "list files from https://github.com/acme/widget"
      ⟨some false, none, none, none, some "boom"⟩
      ⟨none, some [⟨"CTX", "llama_model", 0.9⟩]⟩
      ⟨"CTX", "llama_model", 0.9⟩ [] (by decide)).1 (by decide) (by decide)
      rfl,
   (c2_claim "list files from https://github.com/acme/widget"
      ⟨some true, some [], some "acme", some "widget", none⟩
      ⟨none, some [⟨"CTX", "llama_model", 0.9⟩]⟩
      ⟨"CTX", "llama_model", 0.9⟩ [] (by decide)).2 (by decide) (by decide)⟩

/-- Claim C6: when the dedicated listing call fails and the fallback generic
context call also reports an error field, the final message embeds the
dedicated call's `message`, not the generic call's error text. -/
theorem c6_claim : ∀ (q : String) (lr : ListFilesData) (cd : ContextData)
    (m : String),
    isListingIntent q = true →
    lr.success.getD false = false →
    cd.error.isSome = true →
    lr.message = some m →
    generate_response q lr cd =
      "Sorry, I couldn't list the GitHub repository files: " ++ m := by
  intro q lr cd m hq hs he hm
  have hq' : (github_request q && (searchGithubUrl q).isSome) = true := hq
  simp [generate_response, hq', hs, he, hm]

theorem c6_witness :
    generate_response "list files from https://github.com/acme/widget"
        ⟨some false, none, none, none, some "dedicated says no"⟩
        ⟨some "generic error text", none⟩ =
      "Sorry, I couldn't list the GitHub repository files: dedicated says no" :=
  c6_claim "list files from https://github.com/acme/widget"
    ⟨some false, none, none, none, some "dedicated says no"⟩
    ⟨some "generic error text", none⟩ "dedicated says no"
    (by decide) (by decide) (by decide) (by decide)

/-- Claim C5: whenever the query reaches the GitHub listing path and the
upstream call fails (non-2xx status or transport exception), the context
response's element is tagged `"github_api_error"` and its content contains the
upstream-reported reason (the body's `message` field, or the exception text). -/
theorem c5_claim : ∀ (q url : String) (ri : RepoRef) (gh : GhUpstream)
    (lo : LlamaUpstream) (m : String),
    github_request q = true →
    searchGithubUrl q = some url →
    parse_github_url url = some ri →
    ghFails gh →
    upstreamReason gh = some m →
    (element0 (get_context q gh lo)).source = "github_api_error" ∧
    occursIn m.data (element0 (get_context q gh lo)).content.data := by
  intro q url ri gh lo m hq hs hp hfail hm
  cases gh with
  | exn e =>
    simp only [upstreamReason, Option.some.injEq] at hm
    subst hm
    constructor
    · simp [get_context, contextElementsFor, element0, hq, hs, hp,
        list_github_repo_files]
    · refine ⟨"Error accessing GitHub repository: ".data, [], ?_⟩
      simp [get_context, contextElementsFor, element0, hq, hs, hp,
        list_github_repo_files, String.data_append]
  | response status contents message =>
    simp only [upstreamReason] at hm
    have hne : status ≠ 200 := by
      rcases hfail with h | h <;> omega
    have hbe : (status == 200) = false := by simpa using hne
    constructor
    · simp [get_context, contextElementsFor, element0, hq, hs, hp,
        list_github_repo_files, hbe, hm]
    · refine ⟨"Error accessing GitHub repository: ".data, [], ?_⟩
      simp [get_context, contextElementsFor, element0, hq, hs, hp,
        list_github_repo_files, hbe, hm, String.data_append]

theorem c5_witness :
    (element0 (get_context "list files from https://github.com/acme/widget"
        (GhUpstream.response 404 [] (some "Not Found"))
        (LlamaUpstream.exn "x"))).source = "github_api_error" ∧
    occursIn "Not Found".data
      (element0 (get_context "list files from https://github.com/acme/widget"
        (GhUpstream.response 404 [] (some "Not Found"))
        (LlamaUpstream.exn "x"))).content.data :=
  c5_claim "list files from https://github.com/acme/widget"
    "https://github.com/acme/widget" ⟨"acme", "widget"⟩
    (GhUpstream.response 404 [] (some "Not Found")) (LlamaUpstream.exn "x")
    "Not Found" (by decide) (by decide) (by decide)
    (Or.inr (by decide)) rfl

theorem stripSchemeOpt_decomp (cs : List Char) :
    ∃ sch, (sch = "https://".data ∨ sch = "http://".data ∨ sch = []) ∧
      cs = sch ++ stripSchemeOpt cs := by
  unfold stripSchemeOpt
  cases h1 : stripLit "https://".data cs with
  | some r => exact ⟨"https://".data, Or.inl rfl, stripLit_eq_some h1⟩
  | none =>
    cases h2 : stripLit "http://".data cs with
    | some r => exact ⟨"http://".data, Or.inr (Or.inl rfl), stripLit_eq_some h2⟩
    | none => exact ⟨[], Or.inr (Or.inr rfl), by simp⟩

theorem stripWwwOpt_decomp (cs : List Char) :
    ∃ www, (www = "www.".data ∨ www = []) ∧ cs = www ++ stripWwwOpt cs := by
  unfold stripWwwOpt
  cases h1 : stripLit "www.".data cs with
  | some r => exact ⟨"www.".data, Or.inl rfl, stripLit_eq_some h1⟩
  | none => exact ⟨[], Or.inr rfl, by simp⟩

theorem parseOwnerRepo_sound {r3 : List Char} {r : RepoRef}
    (h : parseOwnerRepo r3 = some r) :
    ∃ own rep rest, r3 = own ++ '/' :: rep ++ rest ∧
      own ≠ [] ∧ (∀ c ∈ own, c ≠ '/') ∧
      rep ≠ [] ∧ (∀ c ∈ rep, c ≠ '/' ∧ c ≠ '.') := by
  unfold parseOwnerRepo at h
  split at h
  case h_2 => exact absurd h (by simp)
  case h_1 r5 heq =>
    simp only at h
    cases hco : ((r3.takeWhile (fun c => !(c == '/'))).isEmpty
        || (r5.takeWhile (fun c => !(c == '/') && !(c == '.'))).isEmpty) with
    | true => rw [hco] at h; exact absurd h (by simp)
    | false =>
      rw [hco] at h
      simp only [Bool.or_eq_false_iff, List.isEmpty_eq_false] at hco
      refine ⟨r3.takeWhile (fun c => !(c == '/')),
        r5.takeWhile (fun c => !(c == '/') && !(c == '.')),
        r5.dropWhile (fun c => !(c == '/') && !(c == '.')),
        ?_, hco.1, ?_, hco.2, ?_⟩
      · rw [List.append_assoc, List.cons_append,
          List.takeWhile_append_dropWhile, ← heq,
          List.takeWhile_append_dropWhile]
      · intro c hc
        simpa using List.mem_takeWhile_imp hc
      · intro c hc
        simpa using List.mem_takeWhile_imp hc

theorem parse_github_url_sound : ∀ (url : String) (r : RepoRef),
    parse_github_url url = some r → specGithubUrlPattern url := by
  intro url r h
  unfold parse_github_url at h
  cases hg : stripLit "github.com/".data (stripWwwOpt (stripSchemeOpt url.data)) with
  | none => rw [hg] at h; exact absurd h (by simp)
  | some r3 =>
    rw [hg] at h
    obtain ⟨sch, hsch, hseq⟩ := stripSchemeOpt_decomp url.data
    obtain ⟨www, hwww, hweq⟩ := stripWwwOpt_decomp (stripSchemeOpt url.data)
    have hgeq := stripLit_eq_some hg
    obtain ⟨own, rep, rest, hdec, hone, hoc, hrne, hrc⟩ := parseOwnerRepo_sound h
    refine ⟨sch, www, own, rep, rest, hsch, hwww, ?_, hone, hoc, hrne, hrc⟩
    rw [hseq, hweq, hgeq, hdec]
    simp [List.append_assoc]

/-- Claim C4: the URL Parser is total; any string it accepts matches the
pattern `[scheme://][www.]github.com/<owner>/<repo>` (equivalently, a
non-matching string yields the no-match signal `none`, never an exception);
`https://github.com/acme/widget` parses to owner `acme`, repo `widget`, and
the `.git` variant parses to the same result with the suffix stripped. -/
theorem c4_claim :
    parse_github_url "https://github.com/acme/widget" =
      some ⟨"acme", "widget"⟩ ∧
    parse_github_url "https://github.com/acme/widget.git" =
      some ⟨"acme", "widget"⟩ ∧
    ∀ (url : String) (r : RepoRef),
      parse_github_url url = some r → specGithubUrlPattern url :=
  ⟨by decide, by decide, parse_github_url_sound⟩

theorem c4_witness : specGithubUrlPattern "https://github.com/acme/widget" :=
  c4_claim.2.2 "https://github.com/acme/widget" ⟨"acme", "widget"⟩ (by decide)

theorem urlSegChar_iff {c : Char} :
    urlSegChar c = true ↔ (c ≠ '/' ∧ isPySpace c = false) := by
  simp [urlSegChar]

theorem matchSchemeAt_sound {cs sch r1 : List Char}
    (h : matchSchemeAt cs = some (sch, r1)) :
    (sch = "https://".data ∨ sch = "http://".data) ∧ cs = sch ++ r1 := by
  unfold matchSchemeAt at h
  cases h1 : stripLit "https://".data cs with
  | some r =>
    rw [h1] at h
    simp only [Option.some.injEq, Prod.mk.injEq] at h
    obtain ⟨h2, h3⟩ := h
    subst h2; subst h3
    exact ⟨Or.inl rfl, stripLit_eq_some h1⟩
  | none =>
    rw [h1] at h
    cases h2 : stripLit "http://".data cs with
    | some r =>
      rw [h2] at h
      simp only [Option.some.injEq, Prod.mk.injEq] at h
      obtain ⟨h3, h4⟩ := h
      subst h3; subst h4
      exact ⟨Or.inr rfl, stripLit_eq_some h2⟩
    | none => rw [h2] at h; exact absurd h (by simp)

theorem matchSchemeAt_https (r : List Char) :
    matchSchemeAt ("https://".data ++ r) = some ("https://".data, r) := by
  unfold matchSchemeAt
  rw [stripLit_self_append]

theorem matchSchemeAt_http (r : List Char) :
    matchSchemeAt ("http://".data ++ r) = some ("http://".data, r) := by
  unfold matchSchemeAt
  have h1 : stripLit "https://".data ("http://".data ++ r) = none := rfl
  rw [h1, stripLit_self_append]

theorem matchWwwAt_sound (cs : List Char) :
    ((matchWwwAt cs).1 = "www.".data ∨ (matchWwwAt cs).1 = []) ∧
      cs = (matchWwwAt cs).1 ++ (matchWwwAt cs).2 := by
  unfold matchWwwAt
  cases h1 : stripLit "www.".data cs with
  | some r => exact ⟨Or.inl rfl, stripLit_eq_some h1⟩
  | none => exact ⟨Or.inr rfl, by simp⟩

theorem matchWwwAt_www (r : List Char) :
    matchWwwAt ("www.".data ++ r) = ("www.".data, r) := by
  unfold matchWwwAt
  rw [stripLit_self_append]

theorem matchWwwAt_noWww {cs : List Char}
    (h : stripLit "www.".data cs = none) : matchWwwAt cs = ([], cs) := by
  unfold matchWwwAt
  rw [h]

theorem takeWhile_append_cons {p : Char → Bool} {l : List Char} {c : Char}
    {t : List Char} (h : ∀ a ∈ l, p a = true) (hc : p c = false) :
    (l ++ c :: t).takeWhile p = l ∧ (l ++ c :: t).dropWhile p = c :: t := by
  constructor
  · rw [List.takeWhile_append_of_pos (by simpa using h)]
    simp [List.takeWhile_cons, hc]
  · rw [List.dropWhile_append_of_pos (by simpa using h)]
    simp [List.dropWhile_cons, hc]

theorem matchUrlAt_sound {cs m : List Char} (h : matchUrlAt cs = some m) :
    ∃ sch www own rep rest,
      (sch = "https://".data ∨ sch = "http://".data) ∧
      (www = "www.".data ∨ www = []) ∧
      cs = sch ++ www ++ "github.com/".data ++ own ++ '/' :: rep ++ rest ∧
      own ≠ [] ∧ (∀ c ∈ own, urlSegChar c = true) ∧
      rep ≠ [] ∧ (∀ c ∈ rep, urlSegChar c = true) := by
  unfold matchUrlAt at h
  cases hs : matchSchemeAt cs with
  | none => rw [hs] at h; exact absurd h (by simp)
  | some p =>
    obtain ⟨sch, r1⟩ := p
    rw [hs] at h
    simp only at h
    cases hg : stripLit "github.com/".data (matchWwwAt r1).2 with
    | none => rw [hg] at h; exact absurd h (by simp)
    | some r3 =>
      rw [hg] at h
      simp only at h
      split at h
      case h_2 => exact absurd h (by simp)
      case h_1 r5 heq =>
        cases hco : ((r3.takeWhile urlSegChar).isEmpty
            || (r5.takeWhile urlSegChar).isEmpty) with
        | true => rw [hco] at h; exact absurd h (by simp)
        | false =>
          simp only [Bool.or_eq_false_iff, List.isEmpty_eq_false] at hco
          obtain ⟨hsch, hcseq⟩ := matchSchemeAt_sound hs
          obtain ⟨hwww, hr1⟩ := matchWwwAt_sound r1
          have hr2 := stripLit_eq_some hg
          set w := matchWwwAt r1 with hwdef
          refine ⟨sch, w.1, r3.takeWhile urlSegChar,
            r5.takeWhile urlSegChar, r5.dropWhile urlSegChar,
            hsch, hwww, ?_, hco.1, ?_, hco.2, ?_⟩
          · have h5 : r5.takeWhile urlSegChar ++ r5.dropWhile urlSegChar = r5 :=
              List.takeWhile_append_dropWhile _ _
            have h3 : r3.takeWhile urlSegChar ++ r3.dropWhile urlSegChar = r3 :=
              List.takeWhile_append_dropWhile _ _
            rw [hcseq, hr1, hr2]
            simp only [List.append_assoc, List.cons_append]
            rw [h5, ← heq, h3]
          · intro c hc; exact List.mem_takeWhile_imp hc
          · intro c hc; exact List.mem_takeWhile_imp hc

theorem matchUrlAt_complete {sch www own rep : List Char} (post : List Char)
    (hsch : sch = "https://".data ∨ sch = "http://".data)
    (hwww : www = "www.".data ∨ www = [])
    (hone : own ≠ []) (hoc : ∀ c ∈ own, urlSegChar c = true)
    (hrne : rep ≠ []) (hrc : ∀ c ∈ rep, urlSegChar c = true) :
    (matchUrlAt
      (sch ++ www ++ "github.com/".data ++ own ++ '/' :: rep ++ post)).isSome
      = true := by
  have hassoc : sch ++ www ++ "github.com/".data ++ own ++ '/' :: rep ++ post
      = sch ++ (www ++ ("github.com/".data ++ (own ++ '/' :: (rep ++ post)))) := by
    simp [List.append_assoc]
  rw [hassoc]
  have hstep1 : ∀ R, matchSchemeAt (sch ++ R) = some (sch, R) := by
    rcases hsch with rfl | rfl
    · exact matchSchemeAt_https
    · exact matchSchemeAt_http
  have hstep2 : matchWwwAt
      (www ++ ("github.com/".data ++ (own ++ '/' :: (rep ++ post)))) =
      (www, "github.com/".data ++ (own ++ '/' :: (rep ++ post))) := by
    rcases hwww with rfl | rfl
    · exact matchWwwAt_www _
    · simp only [List.nil_append]
      exact matchWwwAt_noWww rfl
  have hslash : urlSegChar '/' = false := rfl
  obtain ⟨htake, hdrop⟩ :=
    takeWhile_append_cons (t := rep ++ post) hoc hslash
  have hb1 : (((own ++ '/' :: (rep ++ post)).takeWhile urlSegChar).isEmpty
      || (((rep ++ post)).takeWhile urlSegChar).isEmpty) = false := by
    obtain ⟨r0, rs, rfl⟩ := List.exists_cons_of_ne_nil hrne
    have hr0 : urlSegChar r0 = true := hrc r0 (by simp)
    rw [htake]
    simp [List.takeWhile_cons, hr0, hone]
  unfold matchUrlAt
  rw [hstep1]
  simp only
  rw [hstep2]
  simp only
  rw [stripLit_self_append]
  simp only
  rw [hdrop]
  simp only
  rw [hb1]
  rfl

theorem searchUrlGo_isSome : ∀ (pre rest : List Char),
    (matchUrlAt rest).isSome = true →
    (searchUrlGo (pre ++ rest)).isSome = true := by
  intro pre
  induction pre with
  | nil =>
    intro rest h
    simp only [List.nil_append]
    cases rest with
    | nil => rw [show matchUrlAt [] = none from rfl] at h; simp at h
    | cons c t =>
      cases hm : matchUrlAt (c :: t) with
      | some m => simp [searchUrlGo, hm]
      | none => rw [hm] at h; simp at h
  | cons p ps ih =>
    intro rest h
    simp only [List.cons_append]
    cases hm : matchUrlAt (p :: (ps ++ rest)) with
    | some m => simp [searchUrlGo, hm]
    | none =>
      simp only [searchUrlGo, hm]
      exact ih rest h

theorem searchUrlGo_sound : ∀ (cs m : List Char), searchUrlGo cs = some m →
    ∃ pre rest, cs = pre ++ rest ∧ matchUrlAt rest = some m := by
  intro cs
  induction cs with
  | nil => intro m h; simp [searchUrlGo] at h
  | cons c t ih =>
    intro m h
    cases hm : matchUrlAt (c :: t) with
    | some m' =>
      simp only [searchUrlGo, hm] at h
      exact ⟨[], c :: t, by simp, by rw [hm, h]⟩
    | none =>
      simp only [searchUrlGo, hm] at h
      obtain ⟨pre, rest, heq, hmm⟩ := ih m h
      exact ⟨c :: pre, rest, by simp [heq], hmm⟩

theorem searchGithubUrl_isSome_iff (q : String) :
    (searchGithubUrl q).isSome = true ↔ specGithubUrlInQuery q := by
  constructor
  · intro h
    unfold searchGithubUrl at h
    rw [Option.isSome_map'] at h
    cases hg : searchUrlGo q.data with
    | none => rw [hg] at h; simp at h
    | some m =>
      obtain ⟨pre, rest, hsplit, hmatch⟩ := searchUrlGo_sound q.data m hg
      obtain ⟨sch, www, own, rep, rest', hsch, hwww, hdec, hone, hoc, hrne, hrc⟩ :=
        matchUrlAt_sound hmatch
      refine ⟨pre, sch, www, own, rep, rest', hsch, hwww, ?_, hone, ?_, hrne, ?_⟩
      · rw [hsplit, hdec]
        simp [List.append_assoc]
      · intro c hc; exact urlSegChar_iff.mp (hoc c hc)
      · intro c hc; exact urlSegChar_iff.mp (hrc c hc)
  · rintro ⟨pre, sch, www, own, rep, post, hsch, hwww, hdec, hone, hoc, hrne, hrc⟩
    unfold searchGithubUrl
    rw [Option.isSome_map']
    have hoc' : ∀ c ∈ own, urlSegChar c = true :=
      fun c hc => urlSegChar_iff.mpr (hoc c hc)
    have hrc' : ∀ c ∈ rep, urlSegChar c = true :=
      fun c hc => urlSegChar_iff.mpr (hrc c hc)
    have hm := matchUrlAt_complete post hsch hwww hone hoc' hrne hrc'
    have hq : q.data =
        pre ++ (sch ++ www ++ "github.com/".data ++ own ++ '/' :: rep ++ post) := by
      rw [hdec]
      simp [List.append_assoc]
    rw [hq]
    exact searchUrlGo_isSome pre _ hm

/-- Claim C1, counterexample: the query
`"list files from https://GitHub.com/acme/widget"` contains a GitHub
repository URL when the host is matched case-insensitively and passes the
keyword test, yet the classifier routes it as generic, because the URL search
regex is case-sensitive and `GitHub.com` does not match it. -/
theorem c1_counterexample :
    specGithubUrlInQueryCI "list files from https://GitHub.com/acme/widget" ∧
    github_request "list files from https://GitHub.com/acme/widget" = true ∧
    isListingIntent "list files from https://GitHub.com/acme/widget" = false := by
  refine ⟨?_, by decide, by decide⟩
  refine ⟨"list files from ".data, "https://".data, [], "acme".data,
    "widget".data, [], Or.inl rfl, Or.inr rfl, by decide, by decide, by decide,
    by decide, by decide⟩

/-- Claim C1 (amended): the classifier reports listing intent iff the query
contains a GitHub repository URL with the host (and scheme) in lower case,
and the lowercased query contains `"github"` and (`"list"` or `"files"`);
`"list files from https://github.com/acme/widget"` is listing intent and
`"tell me about https://github.com/acme/widget"` is generic. -/
theorem c1_claim :
    isListingIntent "list files from https://github.com/acme/widget" = true ∧
    isListingIntent "tell me about https://github.com/acme/widget" = false ∧
    ∀ q : String, isListingIntent q = true ↔
      (specGithubUrlInQuery q ∧
        (occursIn "github".data (pyLower q).data ∧
          (occursIn "list".data (pyLower q).data ∨
            occursIn "files".data (pyLower q).data))) := by
  refine ⟨by decide, by decide, ?_⟩
  intro q
  rw [isListingIntent, Bool.and_eq_true, github_request_iff,
    ← searchGithubUrl_isSome_iff]
  tauto
